import Mathlib

/-!
Verification of the Sentiment-Analysis-DL repository.

This file gives a shallow embedding, in Lean 4, of the data-handling logic of
the repository's two source files:

  * `BERT/base_model.py` — the `ClassificationModel` class: label-index
    construction (`build_token2id_label2id_dict`), label/id conversion
    (`convert_label_to_idx`, `convert_idx_to_label`), the page-shuffled batch
    generator (`get_data_generator`), the `fit` orchestration (effective batch
    size, 95th-percentile sequence-length inference) and the `predict`
    decision/shape logic.
  * `CNN/CNN+glove+Senntiment.py` — the `load_data_and_label` data loader.

External collaborators (the kashgari embedding adapter's `tokenize`, the keras
`pad_sequences` routine, sklearn's `MultiLabelBinarizer.inverse_transform`, the
neural network itself) are embedded from their documented behaviour, taking the
network's score function as an explicit parameter.  Python machine integers are
modelled as `Nat`; raw network scores, which are compared against literal
thresholds such as `0.6`, are modelled as `Rat` (the comparisons performed by
the code are robust: the decimals involved differ by far more than any float
rounding).  Fallible Python operations (`dict` lookup raising `KeyError`,
indexing an empty sequence raising `IndexError`) are modelled with `Option`.
-/

namespace SentimentDL

/-! ## Embedding adapter and keras padding (external collaborators)

`BaseEmbedding.tokenize` maps each token of a sentence to its integer id; it is
modelled by an arbitrary per-token map `tok : String → Nat`.
`keras.preprocessing.sequence.pad_sequences(..., maxlen=m, padding='post')`
pads every row at the end with zeros up to width `m` and truncates longer rows
(keras keeps the last `m` entries, `truncating='pre'` being the default). -/

/-- Tokenize one sentence: `self.embedding.tokenize` applied to a single
`List[str]` produces one id per token. -/
def tokenize_sentence (tok : String → Nat) (s : List String) : List Nat :=
  s.map tok

/-- Tokenize a list of sentences. -/
def tokenize (tok : String → Nat) (xs : List (List String)) : List (List Nat) :=
  xs.map (tokenize_sentence tok)

/-- keras `pad_sequences` on one row: pad with trailing zeros to width
`maxlen`, or keep the last `maxlen` entries when the row is longer. -/
def pad_row (maxlen : Nat) (row : List Nat) : List Nat :=
  if maxlen ≤ row.length then row.drop (row.length - maxlen)
  else row ++ List.replicate (maxlen - row.length) 0

/-- keras `pad_sequences` on a batch of rows. -/
def pad_sequences (maxlen : Nat) (rows : List (List Nat)) : List (List Nat) :=
  rows.map (pad_row maxlen)

/-! ## The batch generator (`get_data_generator`, base_model.py lines 131-166)

Each pass of the inner `for` loop of `get_data_generator` runs over a shuffled
copy of `page_list = list(range((len(x_data) // batch_size) + 1))`; shuffling
permutes the pages but does not change the batch produced for a given page, so
the per-page batch is embedded as a function of the page number. -/

/-- The page list of one epoch: `list(range((len(x_data) // batch_size) + 1))`
(base_model.py line 137). -/
def page_list (n batch_size : Nat) : List Nat :=
  List.range (n / batch_size + 1)

/-- The raw slice of one page: `x_data[start_index : start_index+batch_size]`
(base_model.py lines 140-143).  Python slicing clamps at the end of the list. -/
def page_slice {α : Type} (xs : List α) (batch_size page : Nat) : List α :=
  (xs.drop (page * batch_size)).take batch_size

/-- The slice actually used for a page: `if len(target_x) == 0:` the generator
substitutes the first page `x_data[0:batch_size]` (base_model.py lines
144-146). -/
def target_slice {α : Type} (xs : List α) (batch_size page : Nat) : List α :=
  if (page_slice xs batch_size page).length = 0 then xs.take batch_size
  else page_slice xs batch_size page

/-- The padded token arrays yielded for one page: tokenize the selected slice
and pad every row to the embedding's configured sequence length
(base_model.py lines 148-152). -/
def batch_x (tok : String → Nat) (seq_len : Nat) (x_data : List (List String))
    (batch_size page : Nat) : List (List Nat) :=
  pad_sequences seq_len (tokenize tok (target_slice x_data batch_size page))

/-! ## The `fit` orchestration (base_model.py lines 168-232) -/

/-- The effective batch size used by `fit`:
`if len(x_train) < batch_size: batch_size = len(x_train) // 2`
(base_model.py lines 195-196). -/
def effective_batch_size (n batch_size : Nat) : Nat :=
  if n < batch_size then n / 2 else batch_size

/-- The train-loop plan built by `fit` after the batch-size adjustment: the
generators use the effective batch size and
`steps_per_epoch = len(x_train) // batch_size` (base_model.py lines 204-229). -/
structure FitPlan where
  batch_size : Nat
  steps_per_epoch : Nat

/-- Assemble the plan exactly as `fit` does: first the silent batch-size
reduction, then generators and `steps_per_epoch` from the reduced value. -/
def fit_plan (n requested_batch_size : Nat) : FitPlan :=
  let bs := effective_batch_size n requested_batch_size
  { batch_size := bs, steps_per_epoch := n / bs }

/-- Python `sorted([len(x) for x in x_train])` (base_model.py line 200),
embedded with a structurally recursive sort so that witnesses evaluate. -/
def sorted_lengths (x_train : List (List String)) : List Nat :=
  List.insertionSort (· ≤ ·) (x_train.map List.length)

/-- The index `int(0.95 * len(x_train))` of base_model.py line 200.  CPython
computes `0.95 * n` in double precision; for every list size below `10^14` the
float result rounds to a value with the same floor as the exact rational
`95 * n / 100`, so the index is embedded exactly. -/
def percentile_95_index (n : Nat) : Nat :=
  95 * n / 100

/-- Sequence-length inference of `fit` (base_model.py lines 198-202): only when
no model is built yet and the embedding's sequence length is `0` is the length
set to the 95th-percentile training input length; otherwise it is unchanged. -/
def infer_sequence_length (model_built : Bool) (seq_len : Nat)
    (x_train : List (List String)) : Nat :=
  if model_built = false ∧ seq_len = 0 then
    (sorted_lengths x_train).getD (percentile_95_index x_train.length) 0
  else seq_len

/-! ## The CNN script's data loader
(`load_data_and_label`, CNN+glove+Senntiment.py lines 36-63)

`jieba` word segmentation (`' '.join(list(jieba.cut(line.strip())))`) maps each
line to one processed line; it is embedded as an arbitrary line transformer
`seg : String → String` (only the line counts matter to the claims).  Note the
source builds `positive_labels = [1 for _ in negative_texts]` — the positive
labels are generated from the NEGATIVE file's line count. -/

/-- Embedding of `load_data_and_label`: returns the concatenated text list and
the label array, faithfully reproducing that both label blocks are sized by
`negative_texts`. -/
def load_data_and_label (seg : String → String) (pos_lines neg_lines : List String) :
    List String × List Nat :=
  let positive_texts := pos_lines.map seg
  let negative_texts := neg_lines.map seg
  let x_text := positive_texts ++ negative_texts
  let positive_labels := negative_texts.map (fun _ => 1)
  let negative_labels := negative_texts.map (fun _ => 0)
  (x_text, positive_labels ++ negative_labels)

/-! ## Helper lemmas about padding and page slicing -/

lemma pad_row_length (m : Nat) (row : List Nat) : (pad_row m row).length = m := by
  unfold pad_row
  split
  · rw [List.length_drop]
    omega
  · rw [List.length_append, List.length_replicate]
    omega

lemma page_slice_length {α : Type} (xs : List α) (b p : Nat) :
    (page_slice xs b p).length = min b (xs.length - p * b) := by
  simp [page_slice]

lemma batch_x_length (tok : String → Nat) (seq_len : Nat) (x_data : List (List String))
    (b p : Nat) :
    (batch_x tok seq_len x_data b p).length = (target_slice x_data b p).length := by
  simp [batch_x, pad_sequences, tokenize]

/-- Size of the slice used for each page of an epoch, in the regime the spec
quantifies over (`1 ≤ b ≤ n`): pages before the last always carry `b`
examples, and the final page carries `b` examples when `b` divides `n`
(the empty trailing slice is replaced by the first page) but only `n % b`
examples otherwise. -/
lemma target_slice_length {α : Type} (xs : List α) (b p : Nat)
    (hb : 1 ≤ b) (hbn : b ≤ xs.length) (hp : p ∈ page_list xs.length b) :
    (target_slice xs b p).length =
      if p < xs.length / b then b
      else if xs.length % b = 0 then b else xs.length % b := by
  have hp' : p ≤ xs.length / b := by
    have := List.mem_range.mp hp
    omega
  have hmd := Nat.mod_add_div xs.length b
  have hmc : b * (xs.length / b) = (xs.length / b) * b := Nat.mul_comm _ _
  have hml : xs.length % b < b := Nat.mod_lt xs.length (by omega)
  rcases Nat.lt_or_ge p (xs.length / b) with hlt | hge
  · -- a page strictly before the last: the raw slice has exactly b elements
    have h1 : (p + 1) * b ≤ (xs.length / b) * b := Nat.mul_le_mul_right b hlt
    have h2 : (xs.length / b) * b ≤ xs.length := Nat.div_mul_le_self _ _
    have hsm : (p + 1) * b = p * b + b := by ring
    have h3 : p * b + b ≤ xs.length := by omega
    have h5 : (page_slice xs b p).length = b := by
      rw [page_slice_length]
      omega
    have hb0 : ¬ (b = 0) := by omega
    simp only [target_slice]
    rw [h5, if_neg hb0, h5, if_pos hlt]
  · -- the last page
    have hpe : p = xs.length / b := by omega
    subst hpe
    rcases eq_or_ne (xs.length % b) 0 with h0 | h0
    · -- b divides n: the raw slice is empty and the first page is substituted
      have hstart : (xs.length / b) * b = xs.length := by omega
      have h5 : (page_slice xs b (xs.length / b)).length = 0 := by
        rw [page_slice_length]
        omega
      simp only [target_slice]
      rw [h5, if_pos rfl, List.length_take]
      have hnl : ¬ (xs.length / b < xs.length / b) := lt_irrefl _
      rw [if_neg hnl, if_pos h0]
      omega
    · -- b does not divide n: the raw slice is a short batch of n % b elements
      have h5 : (page_slice xs b (xs.length / b)).length = xs.length % b := by
        rw [page_slice_length]
        omega
      have hnl : ¬ (xs.length / b < xs.length / b) := lt_irrefl _
      simp only [target_slice]
      rw [h5, if_neg h0, h5, if_neg hnl, if_neg h0]

/-! ## Claim C1 -/

/-- Claim C1, as stated, is false: with `B ≤ N` but `B` not dividing `N`, the
trailing page of an epoch yields a SHORT batch, not one of exactly `B`
examples.  Concretely, with `N = 5` inputs and `B = 2`, page `2` is in the
epoch's page list and its yielded batch holds `1` example, not `2`. -/
theorem get_data_generator_short_batch_counterexample :
    (2 ≤ 5 ∧ (2 : Nat) ∈ page_list 5 2)
    ∧ (batch_x (fun _ => 0) 4 [["a"], ["b"], ["c"], ["d"], ["e"]] 2 2).length = 1
    ∧ (1 : Nat) ≠ 2 := by
  refine ⟨⟨by omega, by decide⟩, ?_, by omega⟩
  decide

/-- Claim C1 (amended): for parallel arrays of length `N` and batch size
`1 ≤ B ≤ N`, every token array yielded by `get_data_generator` has width equal
to the embedding's configured sequence length (padded at the end, truncated
when longer), every page strictly before the last yields exactly `B` examples,
and the final page yields exactly `B` examples when `B` divides `N` (its empty
slice is replaced by the first page) but only `N % B` examples otherwise. -/
theorem get_data_generator_batch_shape (tok : String → Nat) (seq_len : Nat)
    (x_data : List (List String)) (b p : Nat)
    (hb : 1 ≤ b) (hbn : b ≤ x_data.length) (hp : p ∈ page_list x_data.length b) :
    ((batch_x tok seq_len x_data b p).length =
      if p < x_data.length / b then b
      else if x_data.length % b = 0 then b else x_data.length % b)
    ∧ ∀ row ∈ batch_x tok seq_len x_data b p, row.length = seq_len := by
  constructor
  · rw [batch_x_length]
    exact target_slice_length x_data b p hb hbn hp
  · intro row hrow
    simp only [batch_x, pad_sequences, List.mem_map] at hrow
    obtain ⟨r, _, hr⟩ := hrow
    rw [← hr]
    exact pad_row_length seq_len r

/-- Witness for the amended claim C1, at `N = 5`, `B = 2`, page `1`
(a non-trailing page: exactly 2 examples, every row of width 4). -/
theorem get_data_generator_batch_shape_witness :
    ((batch_x (fun _ => 0) 4 [["a"], ["b"], ["c"], ["d"], ["e"]] 2 1).length =
      if 1 < ([["a"], ["b"], ["c"], ["d"], ["e"]] : List (List String)).length / 2 then 2
      else if ([["a"], ["b"], ["c"], ["d"], ["e"]] : List (List String)).length % 2 = 0
        then 2 else ([["a"], ["b"], ["c"], ["d"], ["e"]] : List (List String)).length % 2)
    ∧ ∀ row ∈ batch_x (fun _ => 0) 4 [["a"], ["b"], ["c"], ["d"], ["e"]] 2 1,
        row.length = 4 :=
  get_data_generator_batch_shape (fun _ => 0) 4 [["a"], ["b"], ["c"], ["d"], ["e"]] 2 1
    (by omega) (by decide) (by decide)

/-! ## Claim C4 -/

/-- Claim C4, as stated, is false in one degenerate corner: for EMPTY input
arrays the substituted first page is itself empty, so the generator does yield
an empty batch.  With `x_data = []` and `batch_size = 1`, page `0` is in the
page list, its raw slice is empty, the first-page substitution applies, and the
yielded batch is empty. -/
theorem empty_page_fallback_counterexample :
    (0 : Nat) ∈ page_list 0 1
    ∧ page_slice ([] : List (List String)) 1 0 = []
    ∧ target_slice ([] : List (List String)) 1 0 = []
    ∧ batch_x (fun _ => 0) 3 [] 1 0 = [] := by
  refine ⟨by decide, rfl, rfl, rfl⟩

/-- Claim C4 (amended): for every NONEMPTY input array and batch size `≥ 1`,
whenever a page's raw slice is empty the generator substitutes the first page
(elements `0` to `batch_size`) of the input array, and the batch it yields for
that page is nonempty. -/
theorem empty_page_fallback (tok : String → Nat) (seq_len : Nat)
    (x_data : List (List String)) (b p : Nat)
    (hx : x_data ≠ []) (hb : 1 ≤ b)
    (hempty : page_slice x_data b p = []) :
    target_slice x_data b p = x_data.take b
    ∧ target_slice x_data b p ≠ []
    ∧ batch_x tok seq_len x_data b p ≠ [] := by
  have h0 : (page_slice x_data b p).length = 0 := by rw [hempty]; rfl
  have htake : target_slice x_data b p = x_data.take b := by
    simp only [target_slice, h0]
    simp
  have hlen : (x_data.take b).length = min b x_data.length := List.length_take b x_data
  have hxlen : 1 ≤ x_data.length := by
    cases x_data with
    | nil => exact absurd rfl hx
    | cons a l => simp
  have hne : target_slice x_data b p ≠ [] := by
    rw [htake]
    intro hcontra
    have : (x_data.take b).length = 0 := by rw [hcontra]; rfl
    omega
  refine ⟨htake, hne, ?_⟩
  intro hcontra
  have : (batch_x tok seq_len x_data b p).length = 0 := by rw [hcontra]; rfl
  rw [batch_x_length] at this
  have : target_slice x_data b p = [] := List.eq_nil_of_length_eq_zero this
  exact hne this

/-- Witness for the amended claim C4: `x_data = [["a"]]`, `b = 1`, page `1`
has an empty raw slice; the substituted batch is the first page and nonempty. -/
theorem empty_page_fallback_witness :
    target_slice [["a"]] 1 1 = ([["a"]] : List (List String)).take 1
    ∧ target_slice [["a"]] 1 1 ≠ []
    ∧ batch_x (fun _ => 0) 3 [["a"]] 1 1 ≠ [] :=
  empty_page_fallback (fun _ => 0) 3 [["a"]] 1 1 (by decide) (by omega) (by decide)

/-! ## Claim C3 -/

/-- Claim C3: when `fit` is requested a batch size exceeding the number of
training examples, the effective batch size silently becomes
`len(x_train) // 2`, and both the generators and `steps_per_epoch` are built
from that reduced value. -/
theorem fit_reduces_batch_size (n requested : Nat) (h : n < requested) :
    effective_batch_size n requested = n / 2
    ∧ (fit_plan n requested).batch_size = n / 2
    ∧ (fit_plan n requested).steps_per_epoch = n / (n / 2) := by
  have he : effective_batch_size n requested = n / 2 := by
    simp [effective_batch_size, h]
  exact ⟨he, by simp [fit_plan, he], by simp [fit_plan, he]⟩

/-- Witness for claim C3 at the instance the spec highlights: `N = 10` training
examples and requested `batch_size = 64` give effective batch size `5`. -/
theorem fit_reduces_batch_size_witness :
    (10 < 64 ∧ effective_batch_size 10 64 = 5) ∧ (fit_plan 10 64).batch_size = 5 := by
  have h := fit_reduces_batch_size 10 64 (by omega)
  exact ⟨⟨by omega, h.1⟩, h.2.1⟩

/-! ## Claim C10 -/

/-- Claim C10: `load_data_and_label` sizes BOTH label blocks from the negative
file (`positive_labels = [1 for _ in negative_texts]`), so the label array has
length twice the negative line count while the text list has length
`pos + neg`; whenever the files have different line counts the two returned
arrays have unequal lengths and are misaligned. -/
theorem load_data_and_label_misaligned (seg : String → String)
    (pos_lines neg_lines : List String) :
    (load_data_and_label seg pos_lines neg_lines).2.length = 2 * neg_lines.length
    ∧ (load_data_and_label seg pos_lines neg_lines).1.length
        = pos_lines.length + neg_lines.length
    ∧ (pos_lines.length ≠ neg_lines.length →
        (load_data_and_label seg pos_lines neg_lines).1.length
          ≠ (load_data_and_label seg pos_lines neg_lines).2.length) := by
  refine ⟨?_, ?_, ?_⟩
  · simp [load_data_and_label]
    omega
  · simp [load_data_and_label]
  · intro hne
    simp [load_data_and_label]
    omega

/-- Witness for claim C10: one positive line and two negative lines give 3
texts but 4 labels. -/
theorem load_data_and_label_misaligned_witness :
    (["p"] : List String).length ≠ (["n1", "n2"] : List String).length
    ∧ (load_data_and_label id ["p"] ["n1", "n2"]).1.length
        ≠ (load_data_and_label id ["p"] ["n1", "n2"]).2.length :=
  ⟨by decide,
   (load_data_and_label_misaligned id ["p"] ["n1", "n2"]).2.2 (by decide)⟩

/-! ## The label index (`build_token2id_label2id_dict`, base_model.py lines 92-117)

The method collects the observed labels (`y_train + y_validate` when
validation data is passed, `set(y_data)` for single-label, a set union of the
tuples for multi-label) and then runs
`for idx, label in enumerate(label_set): label2idx[label] = idx`.
CPython iterates a `set` of strings in hash order, which is unspecified (and
randomized across processes by `PYTHONHASHSEED`); the embedding therefore takes
the enumeration order of the set as a parameter `order`, constrained by
`set_order` to be an arbitrary duplicate-free enumeration of the observed
labels.  The inverse map is built the way the `label2idx` setter does it
(base_model.py lines 70-73): swapping every pair. -/

/-- The label pool the set is built from: `y_train + y_validate`
(base_model.py lines 97-102; pass `[]` for a missing validation set). -/
def y_pool (y_train y_validate : List String) : List String :=
  y_train ++ y_validate

/-- Admissible iteration orders of `set(pool)`: a duplicate-free list with
exactly the members of `pool`.  Python guarantees nothing more about the
iteration order of a set of strings. -/
def set_order (order pool : List String) : Prop :=
  order.Nodup ∧ ∀ l, l ∈ order ↔ l ∈ pool

/-- Embedding of `for idx, label in enumerate(label_set): label2idx[label] = idx`
starting at index `k`; the dict is an association list (keys are distinct
because they come from a set). -/
def label2idx_from : Nat → List String → List (String × Nat)
  | _, [] => []
  | k, l :: rest => (l, k) :: label2idx_from (k + 1) rest

/-- The `label2idx` dict built by `build_token2id_label2id_dict` (line 112-114). -/
def label2idx_of (order : List String) : List (String × Nat) :=
  label2idx_from 0 order

/-- The derived inverse dict
`dict([(val, key) for (key, val) in label2idx.items()])`
(base_model.py lines 73 and 116). -/
def idx2label_of (order : List String) : List (Nat × String) :=
  (label2idx_of order).map (fun p => (p.2, p.1))

/-- Embedding of `convert_label_to_idx` on one label (base_model.py line 121):
a plain dict lookup, `none` standing for the `KeyError` raised on a missing
key. -/
def convert_label_to_idx (order : List String) (label : String) : Option Nat :=
  (label2idx_of order).lookup label

/-- Embedding of `convert_idx_to_label` on one id (base_model.py line 127). -/
def convert_idx_to_label (order : List String) (idx : Nat) : Option String :=
  (idx2label_of order).lookup idx

/-- Specification-side definition, following the spec's words: the distinct
labels of the pool listed in first-seen order during vocabulary construction.
Used only to compare the code's behaviour against the spec's ordering claim. -/
def first_seen_order (pool : List String) : List String :=
  pool.foldl (fun acc l => if l ∈ acc then acc else acc ++ [l]) []

/-! ## Helper lemmas about association-list lookups -/

lemma lookup_cons {α β : Type} [BEq α] [LawfulBEq α] [DecidableEq α]
    (k : α) (v : β) (es : List (α × β)) (a : α) :
    ((k, v) :: es).lookup a = if a = k then some v else es.lookup a := by
  by_cases h : a = k
  · subst h
    simp [List.lookup]
  · have hbeq : (a == k) = false := beq_eq_false_iff_ne.mpr h
    simp [List.lookup, hbeq, h]

lemma lookup_label2idx_from_of_mem (order : List String) :
    ∀ k l, l ∈ order →
      ∃ i, (label2idx_from k order).lookup l = some i ∧ k ≤ i ∧ i < k + order.length := by
  induction order with
  | nil =>
    intro k l h
    cases h
  | cons a rest ih =>
    intro k l hmem
    by_cases h : l = a
    · subst h
      refine ⟨k, ?_, le_refl k, by simp⟩
      rw [label2idx_from, lookup_cons, if_pos rfl]
    · have hmem' : l ∈ rest := by
        rcases List.mem_cons.mp hmem with h' | h'
        · exact absurd h' h
        · exact h'
      obtain ⟨i, hi, hk, hlt⟩ := ih (k + 1) l hmem'
      refine ⟨i, ?_, by omega, by simp only [List.length_cons]; omega⟩
      rw [label2idx_from, lookup_cons, if_neg h]
      exact hi

lemma lookup_label2idx_from_bounds (order : List String) :
    ∀ k l i, (label2idx_from k order).lookup l = some i → k ≤ i ∧ i < k + order.length := by
  induction order with
  | nil =>
    intro k l i h
    simp [label2idx_from, List.lookup] at h
  | cons a rest ih =>
    intro k l i h
    rw [label2idx_from, lookup_cons] at h
    by_cases he : l = a
    · rw [if_pos he] at h
      have hik : i = k := (Option.some.inj h).symm
      simp only [List.length_cons]
      omega
    · rw [if_neg he] at h
      have := ih (k + 1) l i h
      simp only [List.length_cons]
      omega

lemma lookup_label2idx_from_inj (order : List String) :
    ∀ k l1 l2 i, (label2idx_from k order).lookup l1 = some i →
      (label2idx_from k order).lookup l2 = some i → l1 = l2 := by
  induction order with
  | nil =>
    intro k l1 l2 i h1 _
    simp [label2idx_from, List.lookup] at h1
  | cons a rest ih =>
    intro k l1 l2 i h1 h2
    rw [label2idx_from, lookup_cons] at h1 h2
    by_cases e1 : l1 = a <;> by_cases e2 : l2 = a
    · rw [e1, e2]
    · rw [if_pos e1] at h1
      rw [if_neg e2] at h2
      have hik : i = k := (Option.some.inj h1).symm
      have hb := (lookup_label2idx_from_bounds rest (k + 1) l2 i h2).1
      exfalso
      omega
    · rw [if_neg e1] at h1
      rw [if_pos e2] at h2
      have hik : i = k := (Option.some.inj h2).symm
      have hb := (lookup_label2idx_from_bounds rest (k + 1) l1 i h1).1
      exfalso
      omega
    · rw [if_neg e1] at h1
      rw [if_neg e2] at h2
      exact ih (k + 1) l1 l2 i h1 h2

lemma lookup_idx2label_from (order : List String) :
    ∀ k l i, (label2idx_from k order).lookup l = some i →
      ((label2idx_from k order).map (fun p => (p.2, p.1))).lookup i = some l := by
  induction order with
  | nil =>
    intro k l i h
    simp [label2idx_from, List.lookup] at h
  | cons a rest ih =>
    intro k l i h
    rw [label2idx_from, lookup_cons] at h
    rw [label2idx_from, List.map_cons, lookup_cons]
    by_cases he : l = a
    · rw [if_pos he] at h
      have hik : i = k := (Option.some.inj h).symm
      rw [if_pos hik, he]
    · rw [if_neg he] at h
      have hb := (lookup_label2idx_from_bounds rest (k + 1) l i h).1
      have hik : ¬ (i = k) := by omega
      rw [if_neg hik]
      exact ih (k + 1) l i h

lemma lookup_label2idx_from_of_not_mem (order : List String) :
    ∀ k l, l ∉ order → (label2idx_from k order).lookup l = none := by
  induction order with
  | nil =>
    intro k l _
    rfl
  | cons a rest ih =>
    intro k l h
    have h1 : l ≠ a := fun e => h (e ▸ List.mem_cons_self a rest)
    have h2 : l ∉ rest := fun m => h (List.mem_cons_of_mem a m)
    rw [label2idx_from, lookup_cons, if_neg h1]
    exact ih (k + 1) l h2

lemma lookup_idx2label_from_out_of_range (order : List String) :
    ∀ k i, k + order.length ≤ i →
      ((label2idx_from k order).map (fun p => (p.2, p.1))).lookup i = none := by
  induction order with
  | nil =>
    intro k i _
    rfl
  | cons a rest ih =>
    intro k i h
    simp only [List.length_cons] at h
    rw [label2idx_from, List.map_cons, lookup_cons]
    have hik : ¬ (i = k) := by omega
    rw [if_neg hik]
    exact ih (k + 1) i (by omega)

/-! ## Claim C2 -/

/-- Claim C2, as stated, is false in its ordering part: the ids are assigned in
the iteration order of a Python `set`, which need not be first-seen order.
For the observed labels `["a", "b"]`, the enumeration `["b", "a"]` is an
admissible set order, under which the first-seen label `"a"` receives id `1`,
whereas the spec's first-seen numbering gives it id `0`. -/
theorem build_label2idx_first_seen_counterexample :
    set_order ["b", "a"] ["a", "b"]
    ∧ convert_label_to_idx ["b", "a"] "a" = some 1
    ∧ convert_label_to_idx (first_seen_order ["a", "b"]) "a" = some 0
    ∧ (1 : Nat) ≠ 0 := by
  refine ⟨⟨by decide, ?_⟩, rfl, rfl, by omega⟩
  intro l
  constructor <;> intro h <;> simp at h ⊢ <;> tauto

/-- Claim C2 (amended): `build_token2id_label2id_dict` produces a label-to-id
mapping that is total over the distinct labels observed in the training (and
optional validation) targets and assigns each distinct label a unique integer
id in `[0, num_labels)` — but in the (unspecified, hash-dependent) iteration
order of the Python set of labels, not necessarily in first-seen order. -/
theorem build_label2idx_total_unique (pool order : List String)
    (ho : set_order order pool) :
    (∀ l ∈ pool, ∃ i, convert_label_to_idx order l = some i ∧ i < order.length)
    ∧ ∀ l1 l2 i, convert_label_to_idx order l1 = some i →
        convert_label_to_idx order l2 = some i → l1 = l2 := by
  constructor
  · intro l hl
    have hmem : l ∈ order := (ho.2 l).mpr hl
    obtain ⟨i, hi, _, hlt⟩ := lookup_label2idx_from_of_mem order 0 l hmem
    exact ⟨i, hi, by omega⟩
  · intro l1 l2 i h1 h2
    exact lookup_label2idx_from_inj order 0 l1 l2 i h1 h2

/-- Witness for the amended claim C2: training labels `["x", "y"]` with
validation labels `["x"]`, enumerated by the set as `["y", "x"]`. -/
theorem build_label2idx_total_unique_witness :
    ∃ i, convert_label_to_idx ["y", "x"] "x" = some i
       ∧ i < (["y", "x"] : List String).length :=
  (build_label2idx_total_unique (y_pool ["x", "y"] ["x"]) ["y", "x"]
      ⟨by decide, fun l => by constructor <;> intro h <;> simp [y_pool] at h ⊢ <;> tauto⟩).1
    "x" (by decide)

/-! ## Claim C8 -/

/-- Claim C8: after building a label index over any observed label set, mapping
any observed label through `convert_label_to_idx` and then
`convert_idx_to_label` returns the original label. -/
theorem label_roundtrip (pool order : List String) (ho : set_order order pool)
    (l : String) (hl : l ∈ pool) :
    ∃ i, convert_label_to_idx order l = some i
       ∧ convert_idx_to_label order i = some l := by
  obtain ⟨i, hi, _, _⟩ := lookup_label2idx_from_of_mem order 0 l ((ho.2 l).mpr hl)
  exact ⟨i, hi, lookup_idx2label_from order 0 l i hi⟩

/-- Witness for claim C8 on the label set `["a", "b"]` and the label `"b"`. -/
theorem label_roundtrip_witness :
    ∃ i, convert_label_to_idx ["a", "b"] "b" = some i
       ∧ convert_idx_to_label ["a", "b"] i = some "b" :=
  label_roundtrip ["a", "b"] ["a", "b"] ⟨by decide, fun l => Iff.rfl⟩ "b" (by decide)

/-! ## Claim C9 -/

/-- Claim C9: converting a label that is not in the built index fails with a
missing-key error (`none`, the `KeyError` of the dict lookup), and so does
converting an id outside `[0, num_labels)`; no default is ever returned. -/
theorem unseen_label_lookup_fails (pool order : List String)
    (ho : set_order order pool) (l : String) (hl : l ∉ pool)
    (i : Nat) (hi : order.length ≤ i) :
    convert_label_to_idx order l = none ∧ convert_idx_to_label order i = none := by
  have hmem : l ∉ order := fun m => hl ((ho.2 l).mp m)
  exact ⟨lookup_label2idx_from_of_not_mem order 0 l hmem,
         lookup_idx2label_from_out_of_range order 0 i (by omega)⟩

/-- Witness for claim C9: the label `"z"` and the id `5` are unknown to the
index built over `["a"]`. -/
theorem unseen_label_lookup_fails_witness :
    convert_label_to_idx ["a"] "z" = none ∧ convert_idx_to_label ["a"] 5 = none :=
  unseen_label_lookup_fails ["a"] ["a"] ⟨by decide, fun l => Iff.rfl⟩
    "z" (by decide) 5 (by decide)

/-! ## Multi-label thresholding in `predict` (base_model.py lines 281-309) -/

/-- Embedding of the two in-place numpy updates on one row of raw scores:
`res[res >= multi_label_threshold] = 1` followed by
`res[res < multi_label_threshold] = 0` (base_model.py lines 284-285). -/
def apply_threshold (threshold : Rat) (res : List Rat) : List Rat :=
  (res.map (fun v => if threshold ≤ v then 1 else v)).map
    (fun v => if v < threshold then 0 else v)

/-- sklearn `MultiLabelBinarizer(classes=...).inverse_transform` on one
indicator row: the class list compressed by the row's nonzero positions. -/
def inverse_transform (classes : List String) (row : List Rat) : List String :=
  ((classes.zip row).filter (fun p => decide (p.2 ≠ 0))).map (fun p => p.1)

/-! ## Claim C6 -/

/-- Claim C6: with the default threshold `0.6`, the multi-label branch of
`predict` converts each raw score to `1` when it is `≥ 0.6` and to `0` when it
is `< 0.6`, independently per label, and the raw score row
`[0.7, 0.4, 0.61]` over three known labels inverse-transforms to exactly the
labels at indices 0 and 2. -/
theorem multi_label_threshold_decode (c0 c1 c2 : String) :
    (∀ res : List Rat, apply_threshold (6/10) res
        = res.map (fun v => if 6/10 ≤ v then 1 else 0))
    ∧ inverse_transform [c0, c1, c2]
        (apply_threshold (6/10) [7/10, 4/10, 61/100]) = [c0, c2] := by
  constructor
  · intro res
    rw [apply_threshold, List.map_map]
    congr 1
    funext v
    simp only [Function.comp_apply]
    by_cases h : (6 : Rat)/10 ≤ v
    · rw [if_pos h, if_neg (by norm_num : ¬ ((1 : Rat) < 6/10)), if_pos h]
    · rw [if_neg h, if_pos (not_le.mp h), if_neg h]
  · norm_num [apply_threshold, inverse_transform]

/-! ## Claim C7 -/

/-- Claim C7: when `fit` runs with no model yet built and the embedding's
sequence length unset (`0`), it sets the sequence length to the element at
index `int(0.95 * N)` of the sorted list of the `N` training input lengths
(this value is in particular one of the observed input lengths); when a model
is already built or the sequence length is nonzero, it is left unchanged. -/
theorem fit_infers_sequence_length (model_built : Bool) (seq_len : Nat)
    (x_train : List (List String)) (hx : x_train ≠ []) :
    (model_built = false ∧ seq_len = 0 →
        infer_sequence_length model_built seq_len x_train
          = (sorted_lengths x_train).getD (percentile_95_index x_train.length) 0
        ∧ infer_sequence_length model_built seq_len x_train ∈ x_train.map List.length)
    ∧ (model_built = true ∨ seq_len ≠ 0 →
        infer_sequence_length model_built seq_len x_train = seq_len) := by
  constructor
  · rintro ⟨hm, hs⟩
    have heq : infer_sequence_length model_built seq_len x_train
        = (sorted_lengths x_train).getD (percentile_95_index x_train.length) 0 := by
      rw [infer_sequence_length, if_pos ⟨hm, hs⟩]
    refine ⟨heq, ?_⟩
    rw [heq]
    have hn : 0 < x_train.length := List.length_pos.mpr hx
    have hlen : (sorted_lengths x_train).length = x_train.length := by
      rw [sorted_lengths, (List.perm_insertionSort _ _).length_eq, List.length_map]
    have hidx : percentile_95_index x_train.length < (sorted_lengths x_train).length := by
      rw [hlen, percentile_95_index,
        Nat.div_lt_iff_lt_mul (by norm_num : (0 : Nat) < 100)]
      omega
    rw [List.getD_eq_getElem _ 0 hidx]
    exact (List.perm_insertionSort (· ≤ ·) (x_train.map List.length)).subset
      (List.getElem_mem hidx)
  · intro h
    rw [infer_sequence_length, if_neg]
    rintro ⟨hm, hs⟩
    rcases h with h | h
    · rw [h] at hm
      exact absurd hm (by simp)
    · exact h hs

/-- Witness for claim C7: three training inputs of lengths 1, 2, 1; the index
is `int(0.95 * 3) = 2`, the sorted length list is `[1, 1, 2]`, and the
inferred sequence length (2) is one of the observed lengths. -/
theorem fit_infers_sequence_length_witness :
    infer_sequence_length false 0 [["a"], ["a", "b"], ["c"]]
      = (sorted_lengths [["a"], ["a", "b"], ["c"]]).getD
          (percentile_95_index ([["a"], ["a", "b"], ["c"]] : List (List String)).length) 0
    ∧ infer_sequence_length false 0 [["a"], ["a", "b"], ["c"]]
        ∈ ([["a"], ["a", "b"], ["c"]] : List (List String)).map List.length :=
  (fit_infers_sequence_length false 0 [["a"], ["a", "b"], ["c"]] (by decide)).1 ⟨rfl, rfl⟩

/-! ## The `predict` return-shape logic (base_model.py lines 250-315)

`predict` accepts either one tokenized sentence (`List[str]`) or a list of
sentences (`List[List[str]]`); the two cases are embedded as the two
constructors of `PredictInput`.  The dispatch
`is_list = not isinstance(sentence[0], str)` evaluates `sentence[0]`, which
raises `IndexError` on an empty argument (modelled as `none`).  The network's
`self.model.predict` is an external collaborator, taken as a parameter
`scorer` producing one row of scores per padded input row.  The embedding
follows the single-label, non-dict decision path: per-row `argmax` followed by
`convert_idx_to_label`, returning a bare label for a single sentence and a
list of labels for a list of sentences. -/

inductive PredictInput where
  | single : List String → PredictInput
  | multi : List (List String) → PredictInput

/-- numpy `argmax` over one row of scores: the index of the first maximal
entry (`0` on the empty row, where numpy would raise). -/
def argmax_idx (row : List Rat) : Nat :=
  match row with
  | [] => 0
  | a :: rest =>
    ((rest.enum).foldl
      (fun best p => if best.2 < p.2 then (p.1 + 1, p.2) else best)
      ((0 : Nat), a)).1

/-- Embedding of the list comprehension `[self._idx2label[l] for l in token]`
inside `convert_idx_to_label` (base_model.py line 129): every lookup must
succeed, otherwise the whole call raises `KeyError`. -/
def convert_idx_to_label_list (order : List String) : List Nat → Option (List String)
  | [] => some []
  | i :: rest =>
    match convert_idx_to_label order i, convert_idx_to_label_list order rest with
    | some l, some ls => some (l :: ls)
    | _, _ => none

/-- Embedding of `predict` (single-label, non-dict path): tokenize, pad — a
single sentence is wrapped as the one-row batch `[tokens]` — score, take the
per-row argmax, convert ids back to labels, and return `results` for a list
input but `results[0]` for a single sentence. -/
def predict (tok : String → Nat) (seq_len : Nat)
    (scorer : List (List Nat) → List (List Rat))
    (order : List String) : PredictInput → Option (Sum String (List String))
  | PredictInput.single s =>
    if s.length = 0 then none
    else
      match convert_idx_to_label_list order
          ((scorer (pad_sequences seq_len [tokenize_sentence tok s])).map argmax_idx) with
      | none => none
      | some [] => none
      | some (l :: _) => some (Sum.inl l)
  | PredictInput.multi sentences =>
    if sentences.length = 0 then none
    else
      match convert_idx_to_label_list order
          ((scorer (pad_sequences seq_len (tokenize tok sentences))).map argmax_idx) with
      | none => none
      | some labels => some (Sum.inr labels)

/-! ## Claim C5 -/

/-- Claim C5, as stated over EVERY tokenized sentence, is false at the empty
sentence: `predict` evaluates `sentence[0]` to decide the input shape, which
raises `IndexError` on `[]` (modelled as `none`), so no scalar result is
returned there. -/
theorem predict_empty_sentence_counterexample :
    predict (fun _ => 0) 1 (fun rows => rows.map (fun _ => [(1 : Rat)])) ["pos"]
      (PredictInput.single []) = none := rfl

/-- Claim C5 (amended): for every trained model and every NONEMPTY tokenized
sentence `s`, `predict` on the single sentence `s` returns a scalar result
while `predict` on the one-element list `[s]` returns the one-element list
containing that same result — the two invocations differ in return shape for
identical semantic input.  (The score function returns one row per padded
input row, and the predicted id must be a known label id — otherwise both
invocations raise the same `KeyError`.) -/
theorem predict_single_vs_list (tok : String → Nat) (seq_len : Nat)
    (scorer : List (List Nat) → List (List Rat)) (order : List String)
    (s : List String) (hs : s ≠ [])
    (hlen : ∀ rows, (scorer rows).length = rows.length)
    (hdec : ∀ row ∈ scorer (pad_sequences seq_len [tokenize_sentence tok s]),
        (convert_idx_to_label order (argmax_idx row)).isSome = true) :
    ∃ r, predict tok seq_len scorer order (PredictInput.single s) = some (Sum.inl r)
       ∧ predict tok seq_len scorer order (PredictInput.multi [s]) = some (Sum.inr [r]) := by
  have hres : (scorer (pad_sequences seq_len [tokenize_sentence tok s])).length = 1 := by
    rw [hlen]
    rfl
  obtain ⟨row, hrow⟩ :
      ∃ row, scorer (pad_sequences seq_len [tokenize_sentence tok s]) = [row] := by
    cases hsc : scorer (pad_sequences seq_len [tokenize_sentence tok s]) with
    | nil =>
      rw [hsc] at hres
      simp at hres
    | cons r rest =>
      cases rest with
      | nil => exact ⟨r, rfl⟩
      | cons r2 rest2 =>
        rw [hsc] at hres
        simp at hres
  obtain ⟨l, hl⟩ := Option.isSome_iff_exists.mp
    (hdec row (by rw [hrow]; exact List.mem_singleton.mpr rfl))
  have hsl : ¬ (s.length = 0) := by
    cases s with
    | nil => exact absurd rfl hs
    | cons a t => simp
  refine ⟨l, ?_, ?_⟩
  · simp only [predict, if_neg hsl, hrow, List.map_cons, List.map_nil]
    simp [convert_idx_to_label_list, hl]
  · have htk : tokenize tok [s] = [tokenize_sentence tok s] := rfl
    simp only [predict, List.length_cons, htk, hrow, List.map_cons, List.map_nil]
    simp [convert_idx_to_label_list, hl]

/-- Witness for the amended claim C5: a one-label model whose score function
gives every input the score row `[1]`; the single sentence `["hi"]` yields the
scalar label and the list `[["hi"]]` yields the one-element list of it. -/
theorem predict_single_vs_list_witness :
    ∃ r, predict (fun _ => 0) 1 (fun rows => rows.map (fun _ => [(1 : Rat)])) ["pos"]
           (PredictInput.single ["hi"]) = some (Sum.inl r)
       ∧ predict (fun _ => 0) 1 (fun rows => rows.map (fun _ => [(1 : Rat)])) ["pos"]
           (PredictInput.multi [["hi"]]) = some (Sum.inr [r]) :=
  predict_single_vs_list (fun _ => 0) 1 (fun rows => rows.map (fun _ => [(1 : Rat)]))
    ["pos"] ["hi"] (by simp)
    (fun rows => by simp)
    (by
      intro row h
      simp [pad_sequences, tokenize_sentence, pad_row] at h
      rw [h]
      rfl)

end SentimentDL
